import Mathlib

/-!
Verification development for the maps4fs web generator core
(`src/webui/generator.py`): admission-control queue, generation
orchestration in `GeneratorUI.generate_map`, settings limiting, and the
artifact download/deletion section of `add_left_widgets`.

The Python code is shallowly embedded: pure helpers become Lean
functions; the orchestration routine becomes a pure function from the
submitted inputs plus an environment (the outcomes of the external
collaborators: engine, queue module, filesystem) to a trace of
externally observable events plus an outcome (normal return or an
escaped exception).
-/

namespace Maps4FS

/-- Model of a Python exception value, distinguishing the exception
classes that `generate_map` treats differently: `ValueError` (caught by
the coordinate/size parsing handlers), `json.JSONDecodeError` (caught by
the raw-configuration/schema handlers), `KeyError` (raised by a `dict`
subscript on a missing key), and a catch-all for any other
`Exception` subclass raised by the engine or the libraries. -/
inductive PyExc where
  | valueError (msg : String)
  | jsonDecodeError (msg : String)
  | keyError (key : String)
  | runtimeError (msg : String)
  deriving DecidableEq

/-- Model of Python `repr(e)` for an exception: class name applied to the
message (quote characters of the real `repr` are not reproduced). -/
def PyExc.pyRepr : PyExc → String
  | .valueError m => "ValueError(" ++ m ++ ")"
  | .jsonDecodeError m => "JSONDecodeError(" ++ m ++ ")"
  | .keyError k => "KeyError(" ++ k ++ ")"
  | .runtimeError m => "RuntimeError(" ++ m ++ ")"

/-! ### Python number parsing (`float(s)` and `int(s)`)

Model of CPython string-to-number conversion: optional surrounding
whitespace, optional sign, then for `float` either `inf`/`infinity`/
`nan` (case-insensitive) or a decimal mantissa with optional exponent.
PEP 515 digit-group underscores are not modelled. On failure both
conversions raise `ValueError` (and nothing else), which is the fact the
orchestrator's `except ValueError` handlers rely on. -/

/-- Model of a Python `float` value: a finite value is kept as the exact
rational the literal denotes (IEEE rounding is irrelevant here because
the orchestrator never branches on the numeric value). -/
inductive PyFloat where
  | fin (q : ℚ)
  | inf (neg : Bool)
  | nan
  deriving DecidableEq

/-- Whitespace characters stripped by Python number conversion
(space, tab, newline, carriage return, vertical tab, form feed). -/
def isPyWs (c : Char) : Bool :=
  c = ' ' ∨ c.toNat = 9 ∨ c.toNat = 10 ∨ c.toNat = 13 ∨ c.toNat = 11 ∨ c.toNat = 12

/-- Numeric value of a digit list, most significant first. -/
def digitsToNat (l : List Char) : ℕ :=
  l.foldl (fun a c => a * 10 + (c.toNat - 48)) 0

/-- Parse an optionally signed, non-empty, all-digit suffix (the exponent
of a float literal); the whole list must be consumed. -/
def parseSignedDigits : List Char → Option ℤ
  | '+' :: r => if r ≠ [] ∧ r.all Char.isDigit then some (digitsToNat r) else none
  | '-' :: r => if r ≠ [] ∧ r.all Char.isDigit then some (-(digitsToNat r : ℤ)) else none
  | r => if r ≠ [] ∧ r.all Char.isDigit then some (digitsToNat r) else none

/-- Parse the optional exponent part of a float literal and apply it to
the mantissa `q`. -/
def parseExpPart : List Char → ℚ → Option ℚ
  | [], q => some q
  | c :: r, q =>
    if c = 'e' ∨ c = 'E' then
      match parseSignedDigits r with
      | some z => some (q * (10 : ℚ) ^ z)
      | none => none
    else none

/-- Parse an unsigned finite float literal: digits, optional point with
fraction digits (at least one digit overall), optional exponent. -/
def parseFiniteFloat (l : List Char) : Option ℚ :=
  let ip := l.takeWhile Char.isDigit
  let r1 := l.dropWhile Char.isDigit
  match r1 with
  | '.' :: r2 =>
    let fp := r2.takeWhile Char.isDigit
    let r3 := r2.dropWhile Char.isDigit
    if ip = [] ∧ fp = [] then none
    else parseExpPart r3 ((digitsToNat ip : ℚ) + (digitsToNat fp : ℚ) / (10 : ℚ) ^ fp.length)
  | _ => if ip = [] then none else parseExpPart r1 (digitsToNat ip)

/-- Body of a float literal after the sign has been removed. -/
def pyFloatBody (l : List Char) (neg : Bool) : Option PyFloat :=
  let low := l.map Char.toLower
  if low = [Char.ofNat 105, Char.ofNat 110, Char.ofNat 102] ∨
     low = ([Char.ofNat 105, Char.ofNat 110, Char.ofNat 102, Char.ofNat 105,
             Char.ofNat 110, Char.ofNat 105, Char.ofNat 116, Char.ofNat 121]) then
    some (.inf neg)
  else if low = [Char.ofNat 110, Char.ofNat 97, Char.ofNat 110] then some .nan
  else (parseFiniteFloat l).map (fun q => .fin (if neg then -q else q))

/-- Model of Python `float(s)`: returns the parsed value or `none` when
CPython would raise `ValueError`. -/
def pyFloatVal (s : String) : Option PyFloat :=
  let l := s.toList.dropWhile isPyWs
  let l := (l.reverse.dropWhile isPyWs).reverse
  match l with
  | '+' :: r => pyFloatBody r false
  | '-' :: r => pyFloatBody r true
  | r => pyFloatBody r false

/-- Python `float(s)` with its failure mode: the only exception a `str`
argument can produce is `ValueError`. -/
def pyFloat (s : String) : Except PyExc PyFloat :=
  match pyFloatVal s with
  | some v => .ok v
  | none => .error (.valueError ("could not convert string to float: " ++ s))

/-- Model of Python `int(s)` (base 10): optional surrounding whitespace,
optional sign, non-empty digits. -/
def pyIntVal (s : String) : Option ℤ :=
  let l := s.toList.dropWhile isPyWs
  let l := (l.reverse.dropWhile isPyWs).reverse
  match l with
  | '+' :: r => if r ≠ [] ∧ r.all Char.isDigit then some (digitsToNat r) else none
  | '-' :: r => if r ≠ [] ∧ r.all Char.isDigit then some (-(digitsToNat r : ℤ)) else none
  | r => if r ≠ [] ∧ r.all Char.isDigit then some (digitsToNat r) else none

/-- Python `int(s)` with its failure mode: the only exception a `str`
argument can produce is `ValueError`. -/
def pyInt (s : String) : Except PyExc ℤ :=
  match pyIntVal s with
  | some v => .ok v
  | none => .error (.valueError ("invalid literal for int() with base 10: " ++ s))

/-! ### The `lat_lon` and `map_size` properties (generator.py lines 66-82)

`lat_lon` is `tuple(map(float, self.lat_lon_input.split(",")))` unpacked
into two variables; `map_size` is the same with `int` and separator
`"x"`. Every component is converted first (a conversion `ValueError`
wins over the unpack error), then unpacking a tuple whose length is not
two raises `ValueError` as well. -/

/-- Structural model of Python `s.split(sep)` for a one-character
separator (the code only splits on `","` and `"x"`): splitting the empty
string yields one empty component, and each separator occurrence starts
a new component. -/
def splitChar (sep : Char) : List Char → List (List Char)
  | [] => [[]]
  | c :: rest =>
    match splitChar sep rest with
    | [] => [[]]
    | h :: t => if c = sep then [] :: h :: t else (c :: h) :: t

/-- Model of `s.split(sep)` producing strings. -/
def pySplit (sep : Char) (s : String) : List String :=
  (splitChar sep s.toList).map String.mk

/-- Model of `GeneratorUI.lat_lon` evaluated on the coordinate input
string, together with the two-variable unpacking in `generate_map`. -/
def lat_lon (input : String) : Except PyExc (PyFloat × PyFloat) :=
  match (pySplit ',' input).mapM pyFloat with
  | .error e => .error e
  | .ok [a, b] => .ok (a, b)
  | .ok l =>
    .error (.valueError
      (if 2 < l.length then "too many values to unpack (expected 2)"
       else "not enough values to unpack (expected 2)"))

/-- Model of `GeneratorUI.map_size` evaluated on the size input string,
together with the two-variable unpacking in `generate_map`. -/
def map_size (input : String) : Except PyExc (ℤ × ℤ) :=
  match (pySplit 'x' input).mapM pyInt with
  | .error e => .error e
  | .ok [h, w] => .ok (h, w)
  | .ok l =>
    .error (.valueError
      (if 2 < l.length then "too many values to unpack (expected 2)"
       else "not enough values to unpack (expected 2)"))

/-! ### Settings dictionaries and `limit_on_public` (generator.py lines 157-172)

A Python `dict` with string keys is modelled as an association list in
which lookup returns the first binding and assignment replaces the first
binding (or appends). Keys are unique in the dictionaries the UI
produces, so first-binding semantics coincides with `dict` semantics. -/

/-- Model of a JSON-ish settings value appearing in the settings
dictionaries (integers and booleans are what the widgets produce). -/
inductive PyVal where
  | vint (z : ℤ)
  | vbool (b : Bool)
  | vstr (s : String)
  deriving DecidableEq

/-- One settings category: field name to value. -/
abbrev Category := List (String × PyVal)

/-- The whole settings dictionary: category name to category. -/
abbrev SettingsJson := List (String × Category)

/-- Model of Python `d[k]` read: the first binding of `k`, if any. -/
def dictGet {α : Type} : List (String × α) → String → Option α
  | [], _ => none
  | (k1, v1) :: rest, k => if k1 = k then some v1 else dictGet rest k

/-- Model of Python `d[k] = v`: replace the first binding of `k`, or
append a new binding when `k` is absent. -/
def dictSet {α : Type} : List (String × α) → String → α → List (String × α)
  | [], k, v => [(k, v)]
  | (k1, v1) :: rest, k, v =>
    if k1 = k then (k, v) :: rest else (k1, v1) :: dictSet rest k v

/-- Key of the background-settings category. -/
def bgKey : String := "BackgroundSettings"

/-- Key of the texture-settings category. -/
def txKey : String := "TextureSettings"

/-- Key of the resize-factor field. -/
def rfKey : String := "resize_factor"

/-- Key of the dissolve field. -/
def dsKey : String := "dissolve"

/-- Model of `GeneratorUI.limit_on_public`: on a non-public deployment
the settings pass through unchanged; on a public one a shallow copy is
taken and `BackgroundSettings.resize_factor` is forced to `8` and
`TextureSettings.dissolve` to `False`. The two category subscripts are
`dict` reads that raise `KeyError` when the category is absent. -/
def limit_on_public (public : Bool) (settings_json : SettingsJson) :
    Except PyExc SettingsJson :=
  if public = false then .ok settings_json
  else
    match dictGet settings_json bgKey with
    | none => .error (.keyError bgKey)
    | some bg =>
      let s1 := dictSet settings_json bgKey (dictSet bg rfKey (.vint 8))
      match dictGet s1 txKey with
      | none => .error (.keyError txKey)
      | some tx => .ok (dictSet s1 txKey (dictSet tx dsKey (.vbool false)))

/-! ### Admission gate (generator.py lines 17 and 397-400) -/

/-- The fixed capacity ceiling `QUEUE_LIMIT = 2` (generator.py line 17). -/
def QUEUE_LIMIT : ℕ := 2

/-- Model of the render-time admission check (generator.py lines
397-400): the generate button is disabled exactly when the deployment is
public and the current queue length has reached `QUEUE_LIMIT`. -/
def generate_button_disabled (public : Bool) (queueLength : ℕ) : Bool :=
  public ∧ QUEUE_LIMIT ≤ queueLength

/-- Modelled from the spec: the pure admission predicate
`admit(length, ceiling) = length < ceiling` of spec section 4.2, stated
here for comparison with the button-disabling logic of the code. -/
def admission_spec (length ceiling : ℕ) : Bool :=
  length < ceiling

/-! ### Observable events and the orchestration environment -/

/-- Externally observable actions performed by the orchestrator and by
the download section of `add_left_widgets`. -/
inductive Event where
  | stError (msg : String)
  | addToQueue (session : String)
  | removeFromQueue (session : String)
  | statusInfo (msg : String)
  | progress (value : ℕ) (label : String)
  | statusSuccess (msg : String)
  | statusError (msg : String)
  | setGenerated (b : Bool)
  | downloadOffered (path : String)
  | scheduleDelete (path : String)
  deriving DecidableEq

/-- Whether an event is an `add_to_queue` call. -/
def Event.isAdd : Event → Bool
  | .addToQueue _ => true
  | _ => false

/-- Whether an event is a `remove_from_queue` call. -/
def Event.isRemove : Event → Bool
  | .removeFromQueue _ => true
  | _ => false

/-- Whether an event is an inline `st.error` validation message. -/
def Event.isStError : Event → Bool
  | .stError _ => true
  | _ => false

/-- Whether an event is a `status_container.error` message (the single
engine-failure boundary message). -/
def Event.isStatusError : Event → Bool
  | .statusError _ => true
  | _ => false

/-- Progress-bar values reported in a trace, in order. -/
def progressValues : List Event → List ℕ
  | [] => []
  | .progress v _ :: rest => v :: progressValues rest
  | _ :: rest => progressValues rest

/-- How one call of `generate_map` ends: a normal return, or an exception
escaping the routine into the hosting process. -/
inductive Outcome where
  | returned
  | raised (e : PyExc)
  deriving DecidableEq

/-- Result of one embedded run of `generate_map`: the event trace, the
outcome, and the settings dictionary handed to
`SettingsModel.all_settings_from_json` (after `limit_on_public`), when
the run got that far. -/
structure RunResult where
  events : List Event
  outcome : Outcome
  usedSettings : Option SettingsJson

/-- The widget state `generate_map` reads (generator.py lines 231-423):
deployment flag plus the submitted form values. `gameCode` only enters
the dynamics through the environment (`Game.from_code` outcome and the
component list of the selected game). -/
structure Inputs where
  public : Bool
  gameCode : String
  latLonInput : String
  mapSizeInput : String
  expertMode : Bool
  rawConfig : String
  settings : SettingsJson
  customSchemas : Bool
  textureSchemaInput : Option String
  treeSchemaInput : Option String

/-- Behaviour of the external collaborators during one run: the JSON
parser, the session name (timestamp-derived), the engine and the queue
module. Each `Option PyExc` field is the exception that the named call
raises (`none` meaning it returns normally); `genYields` are the stage
names the engine's generator produces before `genExc` (if any) is
raised. -/
structure Env where
  jsonLoads : String → Except String SettingsJson
  jsonLoadsSchema : String → Except String Unit
  sessionName : String
  generationTime : String
  componentCount : ℕ
  gameFromCodeExc : Option PyExc
  makedirsExc : Option PyExc
  settingsFromJsonExc : Option PyExc
  mapCtorExc : Option PyExc
  waitPositions : List ℕ
  waitExc : Option PyExc
  genYields : List String
  genExc : Option PyExc
  showPreviewExc : Option PyExc
  mapPreviewExc : Option PyExc
  packResult : Except PyExc String

/-- Model of `repr` of the `json.JSONDecodeError` carrying message `m`. -/
def jsonDecodeRepr (m : String) : String :=
  "JSONDecodeError(" ++ m ++ ")"

/-! ### The orchestration routine `generate_map` (generator.py lines 450-584)

The routine is split into the phase before the `try` block
(`preparePhase`, lines 452-537), the enqueue/wait section plus the
`try`/`except`/`finally` (`enqueueAndRun`, lines 539-584), and the body
of the `try` (`tryPhase`, lines 546-576). -/

/-- Progress reports of the stage loop (generator.py lines 552-554): the
current `completed` value is reported, then `completed` is increased by
`step`. -/
def stageReports (step : ℕ) : List String → ℕ → List Event
  | [], _ => []
  | name :: rest, completed =>
    .progress completed ("⏳ Generating " ++ name ++ "...") ::
      stageReports step rest (completed + step)

/-- The per-run progress increment `step = int(100 / (len(game.components)
+ 2))` (generator.py line 547); for these operands the float division
followed by `int` truncation equals natural division. -/
def stepOf (env : Env) : ℕ :=
  100 / (env.componentCount + 2)

/-- The initial `st.progress(0)` plus the stage-loop reports
(generator.py lines 549-554). -/
def ev0 (env : Env) : List Event :=
  Event.progress 0 "" :: stageReports (stepOf env) env.genYields 0

/-- The preview-creation report (lines 556-557): `completed` is
`step * (number of yielded stages)` after the loop, plus one `step`. -/
def previewsProgress (env : Env) : Event :=
  .progress (stepOf env * env.genYields.length + stepOf env) ("🖼️ Creating previews...")

/-- The packing report (lines 563-564): the preview value plus one more
`step`. -/
def packingProgress (env : Env) : Event :=
  .progress (stepOf env * env.genYields.length + stepOf env + stepOf env)
    ("🗃️ Packing the map...")

/-- Body of the `try` block (generator.py lines 546-576): the initial
`st.progress(0)`, one report per engine stage, the preview report and
preview rendering, the packing report and `pack`, and on success the
session-state flip plus the success message. Returns the events emitted
and the exception that aborted the block, if any. -/
def tryPhase (env : Env) : List Event × Option PyExc :=
  match env.genExc with
  | some e => (ev0 env, some e)
  | none =>
    match env.showPreviewExc with
    | some e => (ev0 env ++ [previewsProgress env], some e)
    | none =>
      match env.mapPreviewExc with
      | some e => (ev0 env ++ [previewsProgress env], some e)
      | none =>
        match env.packResult with
        | .error e => (ev0 env ++ [previewsProgress env, packingProgress env], some e)
        | .ok _ =>
          (ev0 env ++ [previewsProgress env, packingProgress env, .setGenerated true,
             .statusSuccess ("Map generated in " ++ env.generationTime ++ " seconds.")],
           none)

/-- The `try`/`except`/`finally` of `generate_map` (lines 546-584): any
exception from the `try` body is caught by the single
`except Exception` boundary and turned into one `status_container.error`
message containing `repr(e)`; the `finally` block dequeues exactly when
the deployment is public. The construct always returns normally. -/
def tryExceptFinally (public : Bool) (env : Env) : List Event × Outcome :=
  let ev := (tryPhase env).1
  let handled :=
    match (tryPhase env).2 with
    | none => ev
    | some e =>
      ev ++ [.statusError ("An error occurred while generating the map: " ++
               e.pyRepr ++ ".")]
  let fin := if public then [Event.removeFromQueue env.sessionName] else []
  (handled ++ fin, .returned)

/-- The enqueue/wait section plus the guarded block (generator.py lines
539-584). On a public deployment `add_to_queue` is called, each rank the
wait scheduler yields is surfaced, and only then is the `try` entered:
an exception raised while waiting therefore escapes the routine before
the `finally` exists, so no dequeue happens on that path. -/
def enqueueAndRun (public : Bool) (env : Env) : List Event × Outcome :=
  if public then
    let pre := Event.addToQueue env.sessionName ::
      env.waitPositions.map
        (fun p => Event.statusInfo ("Your position in the queue: " ++ toString p ++
          ". Please wait..."))
    match env.waitExc with
    | some e => (pre, .raised e)
    | none =>
      (pre ++ (tryExceptFinally public env).1, (tryExceptFinally public env).2)
  else
    tryExceptFinally public env

/-- Message of the invalid-coordinates inline error (line 457). -/
def latErrMsg : String := "Invalid latitude and longitude!"

/-- Message of the invalid-size inline error (line 467). -/
def sizeErrMsg : String := "Invalid map size!"

/-- Message of the odd-size inline error (line 471). -/
def evenErrMsg : String :=
  "Map size must be a power of 2. For example: 2, 4, ... 2048, 4096, ..."

/-- Message of the non-square-size inline error (line 475). -/
def squareErrMsg : String := "Map size must be square (height == width)."

/-- Truthiness of the optional schema text areas (`if
self.texture_schema_input:`): present and non-empty. -/
def truthyStr : Option String → Bool
  | none => false
  | some s => s ≠ ""

/-- Schema parsing step (generator.py lines 502-514): returns the inline
error message if `json.loads` on a truthy schema input raises
`JSONDecodeError`. -/
def schemaCheck (loads : String → Except String Unit) (inputOpt : Option String)
    (label : String) : Option String :=
  match inputOpt with
  | none => none
  | some s =>
    if s = "" then none
    else
      match loads s with
      | .error m => some ("Invalid " ++ label ++ " schema was provided: " ++ jsonDecodeRepr m)
      | .ok _ => none

/-- The phase of `generate_map` before the `try` block (generator.py
lines 452-537), in source order: `Game.from_code`, coordinate parsing
(only `ValueError` is caught), size parsing (likewise), the evenness and
squareness checks, `os.makedirs`, raw-configuration resolution (only
`JSONDecodeError` is caught), `limit_on_public` (a `KeyError` here is
uncaught), `all_settings_from_json`, the optional schema parses, and the
`Map` constructor. An `.error` result is the whole run's result; an
`.ok` carries the limited settings into the enqueue/run section. -/
def preparePhase (inp : Inputs) (env : Env) : Except RunResult SettingsJson :=
  match env.gameFromCodeExc with
  | some e => .error ⟨[], .raised e, none⟩
  | none =>
  match lat_lon inp.latLonInput with
  | .error (.valueError _) => .error ⟨[.stError latErrMsg], .returned, none⟩
  | .error e => .error ⟨[], .raised e, none⟩
  | .ok _ =>
  match map_size inp.mapSizeInput with
  | .error (.valueError _) => .error ⟨[.stError sizeErrMsg], .returned, none⟩
  | .error e => .error ⟨[], .raised e, none⟩
  | .ok (height, width) =>
  if height % 2 ≠ 0 ∨ width % 2 ≠ 0 then
    .error ⟨[.stError evenErrMsg], .returned, none⟩
  else if height ≠ width then
    .error ⟨[.stError squareErrMsg], .returned, none⟩
  else
  match env.makedirsExc with
  | some e => .error ⟨[], .raised e, none⟩
  | none =>
  match (if inp.expertMode = false then .ok inp.settings else env.jsonLoads inp.rawConfig :
         Except String SettingsJson) with
  | .error m =>
    .error ⟨[.stError ("Invalid raw configuration was provided: " ++ jsonDecodeRepr m)],
            .returned, none⟩
  | .ok json_settings =>
  match limit_on_public inp.public json_settings with
  | .error e => .error ⟨[], .raised e, none⟩
  | .ok limited =>
  match env.settingsFromJsonExc with
  | some e => .error ⟨[], .raised e, some limited⟩
  | none =>
  match (if inp.customSchemas then
           schemaCheck env.jsonLoadsSchema inp.textureSchemaInput ("texture")
         else none) with
  | some m => .error ⟨[.stError m], .returned, some limited⟩
  | none =>
  match (if inp.customSchemas then
           schemaCheck env.jsonLoadsSchema inp.treeSchemaInput ("tree")
         else none) with
  | some m => .error ⟨[.stError m], .returned, some limited⟩
  | none =>
  match env.mapCtorExc with
  | some e => .error ⟨[], .raised e, some limited⟩
  | none => .ok limited

/-- The whole of `GeneratorUI.generate_map` (generator.py lines
450-584) as one run over the submitted inputs and the collaborator
environment. -/
def generate_map (inp : Inputs) (env : Env) : RunResult :=
  match preparePhase inp env with
  | .error r => r
  | .ok limited =>
    ⟨(enqueueAndRun inp.public env).1, (enqueueAndRun inp.public env).2, some limited⟩

/-! ### Download and deferred deletion (generator.py lines 408-423) -/

/-- Modelled from the spec: `config.remove_with_delay_without_blocking`
lives in the `config` module, which is not under `src/`; per spec
section 4.5 it arranges deletion of the file after a fixed delay and
returns without blocking the caller, so in the trace it is a single
scheduling event after which the caller continues. -/
def remove_with_delay_without_blocking (path : String) : Event :=
  .scheduleDelete path

/-- The download section at the end of `add_left_widgets` (generator.py
lines 408-423): when the session state says a map was generated, the
download button is offered first, deferred deletion is scheduled second,
and the generated flag is reset third (the caller keeps running after
the scheduling call). -/
def download_section (generated : Bool) (download_path : String) : List Event :=
  if generated then
    [.downloadOffered download_path,
     remove_with_delay_without_blocking download_path,
     .setGenerated false]
  else []

/-! ### Helper lemmas about traces -/

/-- Progress values distribute over trace concatenation. -/
theorem progressValues_append (l1 l2 : List Event) :
    progressValues (l1 ++ l2) = progressValues l1 ++ progressValues l2 := by
  induction l1 with
  | nil => rfl
  | cons e rest ih => cases e <;> simp [progressValues, ih]

/-- Progress values of the stage-loop reports: the running counter starts
at `c` and each stage adds `step` after reporting. -/
theorem progressValues_stageReports (step : ℕ) (names : List String) :
    ∀ c : ℕ, progressValues (stageReports step names c) =
      (List.range names.length).map (fun k => c + k * step) := by
  induction names with
  | nil => intro c; simp [stageReports, progressValues]
  | cons n ns ih =>
    intro c
    rw [stageReports]
    rw [progressValues, ih (c + step)]
    simp only [List.length_cons, List.range_succ_eq_map, List.map_cons, List.map_map]
    rw [Nat.zero_mul, Nat.add_zero]
    have hfun : (fun k => c + step + k * step) = ((fun k => c + k * step) ∘ Nat.succ) := by
      funext k
      simp only [Function.comp_apply, Nat.succ_eq_add_one]
      ring
    rw [hfun]

/-- The stage-loop reports contain no event satisfying a predicate that
is false on progress events. -/
theorem stageReports_countP (p : Event → Bool) (hp : ∀ v l, p (.progress v l) = false)
    (step : ℕ) (names : List String) :
    ∀ c : ℕ, (stageReports step names c).countP p = 0 := by
  induction names with
  | nil => intro c; simp [stageReports]
  | cons n ns ih => intro c; simp [stageReports, List.countP_cons, hp, ih]

/-- The `try`-body trace consists only of progress reports, the
generated-flag flip and the success message, so any predicate false on
those counts zero occurrences. -/
theorem tryPhase_countP (p : Event → Bool)
    (hp1 : ∀ v l, p (.progress v l) = false)
    (hp2 : p (.setGenerated true) = false)
    (hp3 : ∀ m, p (.statusSuccess m) = false)
    (env : Env) : (tryPhase env).1.countP p = 0 := by
  unfold tryPhase
  repeat' split
  all_goals
    simp [ev0, previewsProgress, packingProgress, List.countP_append, List.countP_cons,
      stageReports_countP p hp1, hp1, hp2, hp3]

/-- A run that fails in the preparation phase produces either no events
(an escaped exception) or a single inline `st.error` message (a handled
validation failure). -/
theorem prep_error_shape (inp : Inputs) (env : Env) (r : RunResult)
    (h : preparePhase inp env = .error r) :
    (r.events = [] ∧ ∃ e, r.outcome = .raised e) ∨
      (∃ m, r.events = [.stError m] ∧ r.outcome = .returned) := by
  unfold preparePhase at h
  repeat' split at h
  all_goals first
    | exact Except.noConfusion h
    | (injection h with h1; subst h1; simp)

/-- Unfolding of a run whose preparation phase succeeds. -/
theorem generate_map_ok (inp : Inputs) (env : Env) (limited : SettingsJson)
    (h : preparePhase inp env = .ok limited) :
    generate_map inp env =
      ⟨(enqueueAndRun inp.public env).1, (enqueueAndRun inp.public env).2, some limited⟩ := by
  unfold generate_map
  rw [h]

/-- Unfolding of a run whose preparation phase fails. -/
theorem generate_map_error (inp : Inputs) (env : Env) (r : RunResult)
    (h : preparePhase inp env = .error r) : generate_map inp env = r := by
  unfold generate_map
  rw [h]

/-- Mapping any function into a constructor on which `p` is false
contributes no `p`-count. -/
theorem countP_map_zero {α : Type} (p : Event → Bool) (g : α → Event)
    (hp : ∀ x, p (g x) = false) (l : List α) : (l.map g).countP p = 0 := by
  induction l with
  | nil => rfl
  | cons a l ih => simp [List.countP_cons, hp, ih]

/-- Queue-position notifications report no progress values. -/
theorem progressValues_map_statusInfo {α : Type} (f : α → String) (l : List α) :
    progressValues (l.map (fun x => Event.statusInfo (f x))) = [] := by
  induction l with
  | nil => rfl
  | cons a l ih => simpa [progressValues] using ih

/-- The guarded construct always returns normally: its `except` clause
catches every exception of the `try` body. -/
theorem tryExceptFinally_outcome (public : Bool) (env : Env) :
    (tryExceptFinally public env).2 = .returned := by
  unfold tryExceptFinally
  cases (tryPhase env).2 <;> rfl

/-- Trace of the guarded construct: the `try`-body events, then the
boundary error message when the body raised, then the `finally`
dequeue when the deployment is public. -/
theorem tryExceptFinally_events (public : Bool) (env : Env) :
    (tryExceptFinally public env).1 =
      (tryPhase env).1 ++
        (match (tryPhase env).2 with
         | none => []
         | some e =>
           [Event.statusError ("An error occurred while generating the map: " ++
             e.pyRepr ++ ".")]) ++
        (if public then [Event.removeFromQueue env.sessionName] else []) := by
  unfold tryExceptFinally
  cases htp : (tryPhase env).2 <;> simp [htp]

/-- The enqueue prefix of a public run: the `add_to_queue` call followed
by one queue-position notification per rank the wait scheduler yields. -/
def waitPrefix (env : Env) : List Event :=
  Event.addToQueue env.sessionName ::
    env.waitPositions.map (fun p => Event.statusInfo
      ("Your position in the queue: " ++ toString p ++ ". Please wait..."))

/-- On a private deployment the enqueue/wait section is just the guarded
construct. -/
theorem enqueueAndRun_false (env : Env) :
    enqueueAndRun false env = tryExceptFinally false env := by
  unfold enqueueAndRun
  simp

/-- On a public deployment an exception while waiting escapes with only
the enqueue prefix emitted. -/
theorem enqueueAndRun_true_waitExc (env : Env) (e : PyExc)
    (hw : env.waitExc = some e) :
    enqueueAndRun true env = (waitPrefix env, .raised e) := by
  unfold enqueueAndRun waitPrefix
  simp [hw]

/-- On a public deployment with a completed wait the guarded construct
runs after the enqueue prefix. -/
theorem enqueueAndRun_true (env : Env) (hw : env.waitExc = none) :
    enqueueAndRun true env =
      (waitPrefix env ++ (tryExceptFinally true env).1, (tryExceptFinally true env).2) := by
  unfold enqueueAndRun waitPrefix
  simp [hw]

/-- The boundary-handler events count zero under any predicate false on
`statusError`. -/
theorem countP_handler (p : Event → Bool) (hp : ∀ m, p (.statusError m) = false)
    (o : Option PyExc) :
    (match o with
     | none => ([] : List Event)
     | some e =>
       [Event.statusError ("An error occurred while generating the map: " ++
         e.pyRepr ++ ".")]).countP p = 0 := by
  cases o <;> simp [List.countP_cons, hp]

/-- The boundary-handler events report no progress values. -/
theorem progressValues_handler (o : Option PyExc) :
    progressValues
      (match o with
       | none => ([] : List Event)
       | some e =>
         [Event.statusError ("An error occurred while generating the map: " ++
           e.pyRepr ++ ".")]) = [] := by
  cases o <;> simp [progressValues]

/-- The enqueue prefix counts zero under any predicate false on
`addToQueue` and `statusInfo`. -/
theorem countP_waitPrefix (p : Event → Bool) (hp1 : ∀ s, p (.addToQueue s) = false)
    (hp2 : ∀ m, p (.statusInfo m) = false) (env : Env) :
    (waitPrefix env).countP p = 0 := by
  unfold waitPrefix
  rw [List.countP_cons_of_neg _ _ (by simp [hp1])]
  exact countP_map_zero p _ (fun x => hp2 _) env.waitPositions

/-- The enqueue prefix reports no progress values. -/
theorem progressValues_waitPrefix (env : Env) :
    progressValues (waitPrefix env) = [] := by
  unfold waitPrefix
  simpa [progressValues] using progressValues_map_statusInfo
    (fun p => "Your position in the queue: " ++ toString p ++ ". Please wait...")
    env.waitPositions

/-- Counting lemma for the enqueue/wait plus guarded section when the
wait completes: on a public deployment exactly one enqueue and exactly
one dequeue appear, on a private one neither, and the section returns
normally. -/
theorem enqueueAndRun_queue_counts (public : Bool) (env : Env)
    (hw : env.waitExc = none) :
    (enqueueAndRun public env).1.countP Event.isAdd = (if public then 1 else 0) ∧
    (enqueueAndRun public env).1.countP Event.isRemove = (if public then 1 else 0) ∧
    (enqueueAndRun public env).2 = .returned := by
  have hadd : (tryPhase env).1.countP Event.isAdd = 0 :=
    tryPhase_countP _ (fun _ _ => rfl) rfl (fun _ => rfl) env
  have hrem : (tryPhase env).1.countP Event.isRemove = 0 :=
    tryPhase_countP _ (fun _ _ => rfl) rfl (fun _ => rfl) env
  have htefAdd : (tryExceptFinally public env).1.countP Event.isAdd = 0 := by
    rw [tryExceptFinally_events, List.countP_append, List.countP_append, hadd,
      countP_handler _ (fun _ => rfl)]
    cases public <;> simp [List.countP_cons, Event.isAdd]
  have htefRem :
      (tryExceptFinally public env).1.countP Event.isRemove = (if public then 1 else 0) := by
    rw [tryExceptFinally_events, List.countP_append, List.countP_append, hrem,
      countP_handler _ (fun _ => rfl)]
    cases public <;> simp [List.countP_cons, Event.isRemove]
  cases public with
  | false =>
    rw [enqueueAndRun_false]
    exact ⟨htefAdd, by simpa using htefRem, tryExceptFinally_outcome false env⟩
  | true =>
    rw [enqueueAndRun_true env hw]
    refine ⟨?_, ?_, tryExceptFinally_outcome true env⟩
    · rw [List.countP_append, htefAdd]
      unfold waitPrefix
      rw [List.countP_cons_of_pos _ _ (by rfl),
        countP_map_zero Event.isAdd
          (fun p => Event.statusInfo
            ("Your position in the queue: " ++ toString p ++ ". Please wait..."))
          (fun _ => rfl)]
      simp
    · rw [List.countP_append, htefRem,
        countP_waitPrefix _ (fun _ => rfl) (fun _ => rfl)]
      simp

/-- Progress values of the enqueue/wait plus guarded section: either
none at all (an exception while waiting) or exactly the `try`-body
values. -/
theorem enqueueAndRun_progressValues (public : Bool) (env : Env) :
    progressValues (enqueueAndRun public env).1 = [] ∨
    progressValues (enqueueAndRun public env).1 = progressValues (tryPhase env).1 := by
  have htef : progressValues (tryExceptFinally public env).1 =
      progressValues (tryPhase env).1 := by
    rw [tryExceptFinally_events, progressValues_append, progressValues_append,
      progressValues_handler]
    cases public <;> simp [progressValues]
  cases public with
  | false =>
    right
    rw [enqueueAndRun_false]
    exact htef
  | true =>
    cases hw : env.waitExc with
    | some e =>
      left
      rw [enqueueAndRun_true_waitExc env e hw]
      exact progressValues_waitPrefix env
    | none =>
      right
      rw [enqueueAndRun_true env hw]
      simp only
      rw [progressValues_append, progressValues_waitPrefix, List.nil_append]
      exact htef

/-- Progress values of a whole run: empty, or exactly the `try`-body
values. -/
theorem generate_map_progressValues (inp : Inputs) (env : Env) :
    progressValues (generate_map inp env).events = [] ∨
    progressValues (generate_map inp env).events = progressValues (tryPhase env).1 := by
  cases hp : preparePhase inp env with
  | error r =>
    rw [generate_map_error _ _ _ hp]
    rcases prep_error_shape _ _ _ hp with ⟨he, _⟩ | ⟨m, he, _⟩ <;>
      rw [he] <;> exact Or.inl rfl
  | ok limited =>
    rw [generate_map_ok _ _ _ hp]
    exact enqueueAndRun_progressValues inp.public env

/-- Progress values of the initial report plus the stage loop. -/
theorem progressValues_ev0 (env : Env) :
    progressValues (ev0 env) =
      0 :: (List.range env.genYields.length).map (fun k => k * stepOf env) := by
  unfold ev0
  rw [progressValues, progressValues_stageReports]
  simp

/-- Shape of the `try`-body progress values: the initial zero, one value
per stage report, then zero, one or two of the reserved preview/packing
values depending on where the body stopped. -/
theorem tryPhase_values (env : Env) :
    ∃ t : List ℕ,
      progressValues (tryPhase env).1 =
        0 :: ((List.range env.genYields.length).map (fun k => k * stepOf env) ++ t) ∧
      (t = [] ∨
       t = [stepOf env * env.genYields.length + stepOf env] ∨
       t = [stepOf env * env.genYields.length + stepOf env,
            stepOf env * env.genYields.length + stepOf env + stepOf env]) := by
  unfold tryPhase
  cases hgen : env.genExc with
  | some e =>
    refine ⟨[], ?_, Or.inl rfl⟩
    simp [progressValues_ev0]
  | none =>
    cases hprev : env.showPreviewExc with
    | some e =>
      refine ⟨[stepOf env * env.genYields.length + stepOf env], ?_, Or.inr (Or.inl rfl)⟩
      simp [progressValues_append, progressValues_ev0, previewsProgress, progressValues,
        progressValues_stageReports]
    | none =>
      cases hmp : env.mapPreviewExc with
      | some e =>
        refine ⟨[stepOf env * env.genYields.length + stepOf env], ?_, Or.inr (Or.inl rfl)⟩
        simp [progressValues_append, progressValues_ev0, previewsProgress, progressValues,
        progressValues_stageReports]
      | none =>
        cases hpk : env.packResult with
        | error e =>
          refine ⟨[stepOf env * env.genYields.length + stepOf env,
                   stepOf env * env.genYields.length + stepOf env + stepOf env], ?_,
                  Or.inr (Or.inr rfl)⟩
          simp [progressValues_append, progressValues_ev0, previewsProgress,
            packingProgress, progressValues, progressValues_stageReports]
        | ok p =>
          refine ⟨[stepOf env * env.genYields.length + stepOf env,
                   stepOf env * env.genYields.length + stepOf env + stepOf env], ?_,
                  Or.inr (Or.inr rfl)⟩
          simp [progressValues_append, progressValues_ev0, previewsProgress,
            packingProgress, progressValues, progressValues_stageReports]

/-- A value list of the `try`-body shape is sorted: the stage values
`k * step` grow with `k` and the reserved tail values dominate them. -/
theorem sorted_shape (step y : ℕ) (t : List ℕ)
    (ht : List.Sorted (· ≤ ·) t) (hge : ∀ x ∈ t, step * y ≤ x) :
    List.Sorted (· ≤ ·) (0 :: ((List.range y).map (fun k => k * step) ++ t)) := by
  rw [List.sorted_cons]
  refine ⟨fun b _ => Nat.zero_le b, ?_⟩
  rw [List.Sorted, List.pairwise_append]
  refine ⟨?_, ht, ?_⟩
  · rw [List.pairwise_map]
    exact (List.pairwise_lt_range y).imp
      (fun h => Nat.mul_le_mul_right step (Nat.le_of_lt h))
  · intro a ha b hb
    obtain ⟨k, hk, rfl⟩ := List.mem_map.1 ha
    have hk' : k < y := List.mem_range.1 hk
    calc k * step ≤ y * step := Nat.mul_le_mul_right step (Nat.le_of_lt hk')
      _ = step * y := Nat.mul_comm y step
      _ ≤ b := hge b hb

/-- The `try`-body progress values are sorted. -/
theorem sorted_tryPhase_values (env : Env) :
    List.Sorted (· ≤ ·) (progressValues (tryPhase env).1) := by
  obtain ⟨t, hvals, ht⟩ := tryPhase_values env
  rw [hvals]
  apply sorted_shape
  · rcases ht with rfl | rfl | rfl
    · exact List.sorted_nil
    · exact List.sorted_singleton _
    · refine List.sorted_cons.2 ⟨?_, List.sorted_singleton _⟩
      intro b hb
      rw [List.mem_singleton] at hb
      subst hb
      exact Nat.le_add_right _ _
  · rcases ht with rfl | rfl | rfl
    · intro x hx
      exact absurd hx (List.not_mem_nil x)
    · intro x hx
      rw [List.mem_singleton] at hx
      subst hx
      exact Nat.le_add_right _ _
    · intro x hx
      rcases List.mem_cons.1 hx with rfl | hx'
      · exact Nat.le_add_right _ _
      · rw [List.mem_singleton] at hx'
        subst hx'
        exact Nat.le_trans (Nat.le_add_right _ _) (Nat.le_add_right _ _)

/-- Helper for the last-is-maximum property of sorted lists, generalized
over the default element. -/
theorem le_getLastD_aux :
    ∀ (l : List ℕ) (d : ℕ), List.Sorted (· ≤ ·) l →
      ∀ x : ℕ, (x ∈ l ∨ (x = d ∧ ∀ y ∈ l, x ≤ y)) → x ≤ l.getLastD d := by
  intro l
  induction l with
  | nil =>
    intro d _ x hx
    rcases hx with hx | ⟨rfl, _⟩
    · exact absurd hx (List.not_mem_nil x)
    · simp [List.getLastD]
  | cons a l ih =>
    intro d hs x hx
    rw [List.getLastD_cons]
    have hsl := List.sorted_cons.1 hs
    rcases hx with hx | ⟨h2, hle⟩
    · rcases List.mem_cons.1 hx with h1 | hx'
      · rw [h1]
        exact ih a hsl.2 a (Or.inr ⟨rfl, hsl.1⟩)
      · exact ih a hsl.2 x (Or.inl hx')
    · have ha : a ≤ l.getLastD a := ih a hsl.2 a (Or.inr ⟨rfl, hsl.1⟩)
      exact Nat.le_trans (hle a (List.mem_cons_self a l)) ha

/-- In a sorted list every element is at most the last element. -/
theorem sorted_le_getLastD (l : List ℕ) (hl : List.Sorted (· ≤ ·) l) :
    ∀ x ∈ l, x ≤ l.getLastD 0 :=
  fun x hx => le_getLastD_aux l 0 hl x (Or.inl hx)

/-! ### Error classification of the parsing helpers -/

/-- Binding a failed `Except` keeps the failure. -/
theorem exceptBind_error {α β : Type} (e : PyExc) (f : α → Except PyExc β) :
    (Except.error e >>= f) = Except.error e := rfl

/-- Binding a successful `Except` applies the continuation. -/
theorem exceptBind_ok {α β : Type} (a : α) (f : α → Except PyExc β) :
    (Except.ok a >>= f) = f a := rfl

/-- Every failure of the `float` conversion is a `ValueError`. -/
theorem pyFloat_error (s : String) (e : PyExc) (h : pyFloat s = .error e) :
    ∃ m, e = .valueError m := by
  unfold pyFloat at h
  split at h
  · exact Except.noConfusion h
  · injection h with h1
    exact ⟨_, h1.symm⟩

/-- Every failure of the `int` conversion is a `ValueError`. -/
theorem pyInt_error (s : String) (e : PyExc) (h : pyInt s = .error e) :
    ∃ m, e = .valueError m := by
  unfold pyInt at h
  split at h
  · exact Except.noConfusion h
  · injection h with h1
    exact ⟨_, h1.symm⟩

/-- Converting a list of components fails only with a `ValueError`. -/
theorem mapM_pyFloat_error (l : List String) :
    ∀ e : PyExc, l.mapM pyFloat = .error e → ∃ m, e = .valueError m := by
  induction l with
  | nil =>
    intro e h
    rw [List.mapM_nil] at h
    exact Except.noConfusion h
  | cons a l ih =>
    intro e h
    rw [List.mapM_cons] at h
    cases hfa : pyFloat a with
    | error e1 =>
      rw [hfa, exceptBind_error] at h
      injection h with h1
      exact (pyFloat_error a e1 hfa).imp (fun m hm => h1 ▸ hm)
    | ok b =>
      rw [hfa, exceptBind_ok] at h
      cases hml : l.mapM pyFloat with
      | error e2 =>
        rw [hml, exceptBind_error] at h
        injection h with h1
        exact (ih e2 hml).imp (fun m hm => h1 ▸ hm)
      | ok bs =>
        rw [hml, exceptBind_ok] at h
        exact Except.noConfusion h

/-- Converting a list of size components fails only with a `ValueError`. -/
theorem mapM_pyInt_error (l : List String) :
    ∀ e : PyExc, l.mapM pyInt = .error e → ∃ m, e = .valueError m := by
  induction l with
  | nil =>
    intro e h
    rw [List.mapM_nil] at h
    exact Except.noConfusion h
  | cons a l ih =>
    intro e h
    rw [List.mapM_cons] at h
    cases hfa : pyInt a with
    | error e1 =>
      rw [hfa, exceptBind_error] at h
      injection h with h1
      exact (pyInt_error a e1 hfa).imp (fun m hm => h1 ▸ hm)
    | ok b =>
      rw [hfa, exceptBind_ok] at h
      cases hml : l.mapM pyInt with
      | error e2 =>
        rw [hml, exceptBind_error] at h
        injection h with h1
        exact (ih e2 hml).imp (fun m hm => h1 ▸ hm)
      | ok bs =>
        rw [hml, exceptBind_ok] at h
        exact Except.noConfusion h

/-- Every failure of the coordinate property plus unpacking is a
`ValueError` — the exception class the orchestrator catches. -/
theorem lat_lon_error (s : String) (e : PyExc) (h : lat_lon s = .error e) :
    ∃ m, e = .valueError m := by
  unfold lat_lon at h
  cases hm : (pySplit ',' s).mapM pyFloat with
  | error e1 =>
    rw [hm] at h
    injection h with h1
    exact (mapM_pyFloat_error _ e1 hm).imp (fun m h2 => h1 ▸ h2)
  | ok l =>
    rw [hm] at h
    rcases l with _ | ⟨a, _ | ⟨b, _ | ⟨c, t⟩⟩⟩ <;> simp at h <;>
      exact ⟨_, h.symm⟩

/-- Every failure of the size property plus unpacking is a
`ValueError` — the exception class the orchestrator catches. -/
theorem map_size_error (s : String) (e : PyExc) (h : map_size s = .error e) :
    ∃ m, e = .valueError m := by
  unfold map_size at h
  cases hm : (pySplit 'x' s).mapM pyInt with
  | error e1 =>
    rw [hm] at h
    injection h with h1
    exact (mapM_pyInt_error _ e1 hm).imp (fun m h2 => h1 ▸ h2)
  | ok l =>
    rw [hm] at h
    rcases l with _ | ⟨a, _ | ⟨b, _ | ⟨c, t⟩⟩⟩ <;> simp at h <;>
      exact ⟨_, h.symm⟩

/-! ### Dictionary lemmas -/

/-- Reading the key just written returns the written value. -/
theorem dictGet_dictSet_self {α : Type} (d : List (String × α)) (k : String) (v : α) :
    dictGet (dictSet d k v) k = some v := by
  induction d with
  | nil => simp [dictGet, dictSet]
  | cons p rest ih =>
    by_cases hk : p.1 = k
    · simp [dictGet, dictSet, hk]
    · simp [dictGet, dictSet, hk, ih]

/-- Writing one key leaves every other key unchanged. -/
theorem dictGet_dictSet_ne {α : Type} (d : List (String × α)) (k k2 : String) (v : α)
    (hne : k ≠ k2) : dictGet (dictSet d k v) k2 = dictGet d k2 := by
  induction d with
  | nil => simp [dictGet, dictSet, hne]
  | cons p rest ih =>
    by_cases hk : p.1 = k
    · simp [dictGet, dictSet, hk, hne]
    · simp [dictGet, dictSet, hk, ih]

/-! ### Provenance of the settings handed to the job -/

/-- Elimination helper: a preparation-phase result with no recorded
settings cannot witness a recorded settings value. -/
theorem used_none_elim {C : Prop} (X : RunResult) (hX : X.usedSettings = none)
    (s : SettingsJson)
    (h : (∃ r, (.error X : Except RunResult SettingsJson) = .error r ∧
           r.usedSettings = some s) ∨
         (.error X : Except RunResult SettingsJson) = .ok s) : C := by
  rcases h with ⟨r, hr, hs⟩ | hok
  · injection hr with h1
    subst h1
    rw [hX] at hs
    exact Option.noConfusion hs
  · exact Except.noConfusion hok

/-- Elimination helper: a preparation-phase error carrying recorded
settings pins down the witnessed value. -/
theorem used_some_elim (X : RunResult) (limited : SettingsJson)
    (hX : X.usedSettings = some limited) (s : SettingsJson)
    (h : (∃ r, (.error X : Except RunResult SettingsJson) = .error r ∧
           r.usedSettings = some s) ∨
         (.error X : Except RunResult SettingsJson) = .ok s) : s = limited := by
  rcases h with ⟨r, hr, hs⟩ | hok
  · injection hr with h1
    subst h1
    rw [hX] at hs
    injection hs with h2
    exact h2.symm
  · exact Except.noConfusion hok

/-- Elimination helper: a successful preparation phase pins down the
witnessed value. -/
theorem used_ok_elim (limited : SettingsJson) (s : SettingsJson)
    (h : (∃ r, (.ok limited : Except RunResult SettingsJson) = .error r ∧
           r.usedSettings = some s) ∨
         (.ok limited : Except RunResult SettingsJson) = .ok s) : s = limited := by
  rcases h with ⟨r, hr, _⟩ | hok
  · exact Except.noConfusion hr
  · injection hok with h1
    exact h1.symm

/-- Every settings dictionary recorded by the preparation phase is the
`limit_on_public` image of the submitted settings (widget dictionary or
parsed raw configuration). -/
theorem prep_used (inp : Inputs) (env : Env) (s : SettingsJson)
    (h : (∃ r, preparePhase inp env = .error r ∧ r.usedSettings = some s) ∨
          preparePhase inp env = .ok s) :
    ∃ base, (base = inp.settings ∨ env.jsonLoads inp.rawConfig = .ok base) ∧
      limit_on_public inp.public base = .ok s := by
  unfold preparePhase at h
  cases hg : env.gameFromCodeExc with
  | some e =>
    simp only [hg] at h
    exact used_none_elim _ rfl s h
  | none =>
  simp only [hg] at h
  cases hl : lat_lon inp.latLonInput with
  | error e1 =>
    cases e1 <;> simp only [hl] at h <;> exact used_none_elim _ rfl s h
  | ok v =>
  simp only [hl] at h
  cases hsz : map_size inp.mapSizeInput with
  | error e1 =>
    cases e1 <;> simp only [hsz] at h <;> exact used_none_elim _ rfl s h
  | ok hw =>
  simp only [hsz] at h
  obtain ⟨height, width⟩ := hw
  by_cases hev : height % 2 ≠ 0 ∨ width % 2 ≠ 0
  · rw [if_pos hev] at h
    exact used_none_elim _ rfl s h
  · rw [if_neg hev] at h
    by_cases hsq : height ≠ width
    · rw [if_pos hsq] at h
      exact used_none_elim _ rfl s h
    · rw [if_neg hsq] at h
      cases hmk : env.makedirsExc with
      | some e =>
        simp only [hmk] at h
        exact used_none_elim _ rfl s h
      | none =>
      simp only [hmk] at h
      cases hjs : (if inp.expertMode = false then .ok inp.settings
                   else env.jsonLoads inp.rawConfig : Except String SettingsJson) with
      | error m =>
        simp only [hjs] at h
        exact used_none_elim _ rfl s h
      | ok json_settings =>
      simp only [hjs] at h
      cases hlim : limit_on_public inp.public json_settings with
      | error e =>
        simp only [hlim] at h
        exact used_none_elim _ rfl s h
      | ok limited =>
      simp only [hlim] at h
      have hbase : json_settings = inp.settings ∨
          env.jsonLoads inp.rawConfig = .ok json_settings := by
        by_cases hEM : inp.expertMode = false
        · rw [if_pos hEM] at hjs
          injection hjs with h2
          exact Or.inl h2.symm
        · rw [if_neg hEM] at hjs
          exact Or.inr hjs
      have hends : s = limited := by
        cases hsf : env.settingsFromJsonExc with
        | some e =>
          simp only [hsf] at h
          exact used_some_elim _ _ rfl s h
        | none =>
        simp only [hsf] at h
        cases hts : (if inp.customSchemas then
            schemaCheck env.jsonLoadsSchema inp.textureSchemaInput ("texture")
          else none) with
        | some m =>
          simp only [hts] at h
          exact used_some_elim _ _ rfl s h
        | none =>
        simp only [hts] at h
        cases htr : (if inp.customSchemas then
            schemaCheck env.jsonLoadsSchema inp.treeSchemaInput ("tree")
          else none) with
        | some m =>
          simp only [htr] at h
          exact used_some_elim _ _ rfl s h
        | none =>
        simp only [htr] at h
        cases hmc : env.mapCtorExc with
        | some e =>
          simp only [hmc] at h
          exact used_some_elim _ _ rfl s h
        | none =>
          simp only [hmc] at h
          exact used_ok_elim _ s h
      refine ⟨json_settings, hbase, ?_⟩
      rw [hends]
      exact hlim

/-- Every settings dictionary a run hands to
`SettingsModel.all_settings_from_json` is the `limit_on_public` image of
the submitted settings. -/
theorem generate_map_used (inp : Inputs) (env : Env) (s : SettingsJson)
    (h : (generate_map inp env).usedSettings = some s) :
    ∃ base, (base = inp.settings ∨ env.jsonLoads inp.rawConfig = .ok base) ∧
      limit_on_public inp.public base = .ok s := by
  unfold generate_map at h
  cases hp : preparePhase inp env with
  | error r =>
    simp only [hp] at h
    exact prep_used inp env s (Or.inl ⟨r, hp, h⟩)
  | ok limited =>
    simp only [hp] at h
    injection h with h1
    subst h1
    exact prep_used inp env limited (Or.inr hp)

/-! ### Validation-failure characterizations of the preparation phase -/

/-- Unparsable coordinates produce the inline coordinate error. -/
theorem prep_latFail (inp : Inputs) (env : Env) (hg : env.gameFromCodeExc = none)
    (m : String) (hl : lat_lon inp.latLonInput = .error (.valueError m)) :
    preparePhase inp env = .error ⟨[.stError latErrMsg], .returned, none⟩ := by
  unfold preparePhase
  simp only [hg, hl]

/-- Unparsable size produces the inline size error. -/
theorem prep_sizeFail (inp : Inputs) (env : Env) (hg : env.gameFromCodeExc = none)
    (v : PyFloat × PyFloat) (hl : lat_lon inp.latLonInput = .ok v)
    (m : String) (hs : map_size inp.mapSizeInput = .error (.valueError m)) :
    preparePhase inp env = .error ⟨[.stError sizeErrMsg], .returned, none⟩ := by
  unfold preparePhase
  simp only [hg, hl, hs]

/-- An odd side produces the inline evenness error. -/
theorem prep_evenFail (inp : Inputs) (env : Env) (hg : env.gameFromCodeExc = none)
    (v : PyFloat × PyFloat) (hl : lat_lon inp.latLonInput = .ok v)
    (h w : ℤ) (hs : map_size inp.mapSizeInput = .ok (h, w))
    (hodd : h % 2 ≠ 0 ∨ w % 2 ≠ 0) :
    preparePhase inp env = .error ⟨[.stError evenErrMsg], .returned, none⟩ := by
  unfold preparePhase
  simp only [hg, hl, hs]
  rw [if_pos hodd]

/-- A non-square size produces the inline squareness error. -/
theorem prep_squareFail (inp : Inputs) (env : Env) (hg : env.gameFromCodeExc = none)
    (v : PyFloat × PyFloat) (hl : lat_lon inp.latLonInput = .ok v)
    (h w : ℤ) (hs : map_size inp.mapSizeInput = .ok (h, w))
    (heven : ¬(h % 2 ≠ 0 ∨ w % 2 ≠ 0)) (hne : h ≠ w) :
    preparePhase inp env = .error ⟨[.stError squareErrMsg], .returned, none⟩ := by
  unfold preparePhase
  simp only [hg, hl, hs]
  rw [if_neg heven, if_pos hne]

/-- Malformed raw configuration in expert mode produces the inline
raw-configuration error. -/
theorem prep_rawFail (inp : Inputs) (env : Env) (hg : env.gameFromCodeExc = none)
    (v : PyFloat × PyFloat) (hl : lat_lon inp.latLonInput = .ok v)
    (h w : ℤ) (hs : map_size inp.mapSizeInput = .ok (h, w))
    (heven : ¬(h % 2 ≠ 0 ∨ w % 2 ≠ 0)) (hsq : ¬(h ≠ w))
    (hmk : env.makedirsExc = none) (hEM : inp.expertMode = true)
    (m : String) (hjl : env.jsonLoads inp.rawConfig = .error m) :
    preparePhase inp env =
      .error ⟨[.stError ("Invalid raw configuration was provided: " ++ jsonDecodeRepr m)],
        .returned, none⟩ := by
  unfold preparePhase
  simp only [hg, hl, hs]
  rw [if_neg heven, if_neg hsq]
  simp only [hmk]
  rw [if_neg (by rw [hEM]; simp : ¬ inp.expertMode = false)]
  simp only [hjl]

/-! ### Concrete fixtures for witnesses and counterexamples -/

/-- A settings dictionary containing both limited categories, as the
widget layer always produces. -/
def settingsBoth : SettingsJson :=
  [(bgKey, [(rfKey, .vint 1), ("fill", .vbool true)]),
   (txKey, [(dsKey, .vbool true)])]

/-- The `limit_on_public` image of `settingsBoth`. -/
def settingsBothLimited : SettingsJson :=
  [(bgKey, [(rfKey, .vint 8), ("fill", .vbool true)]),
   (txKey, [(dsKey, .vbool false)])]

/-- Inputs with the given deployment flag and form strings; expert mode
and custom schemas off. -/
def mkInp (public : Bool) (latLon mapSize : String) : Inputs :=
  Inputs.mk public ("FS25") latLon mapSize false ("") settingsBoth false none none

/-- Environment with the given wait/engine outcomes; every other
external call succeeds. -/
def mkEnv (waitExc genExc showPreviewExc mapCtorExc : Option PyExc)
    (genYields : List String) (componentCount : ℕ)
    (packResult : Except PyExc String) : Env :=
  Env.mk (fun _ => .error ("malformed")) (fun _ => .ok ()) ("session") ("1.5")
    componentCount none none none mapCtorExc [1, 0] waitExc genYields genExc
    showPreviewExc none packResult

/-! ### C1 — exactly-once queue release -/

/-- Fixture for the C1 counterexample: a public run in which the wait
scheduler raises after yielding its positions. -/
def inpC1 : Inputs := mkInp true ("45.0,20.0") ("2048x2048")

/-- Environment for the C1 counterexample. -/
def envC1 : Env :=
  mkEnv (some (.runtimeError ("queue wait failed"))) none none none
    [("Background")] 5 (.ok ("map.zip"))

/-- C1 counterexample: in this public run `add_to_queue` was called once
but, because the exception arose while waiting in the queue — before the
`try`/`finally` is entered — no `remove_from_queue` call occurs and the
exception escapes `generate_map`, contradicting the claimed
exactly-once release for failures raised while waiting. -/
theorem C1_counterexample :
    (generate_map inpC1 envC1).events.countP Event.isAdd = 1 ∧
    (generate_map inpC1 envC1).events.countP Event.isRemove = 0 ∧
    (generate_map inpC1 envC1).outcome = .raised (.runtimeError ("queue wait failed")) := by
  refine ⟨?_, ?_, ?_⟩ <;> rfl

/-- C1 (amended): for every run in which no exception is raised between
`add_to_queue` and entry into the `try` block (the queue wait
completes), the number of `add_to_queue` calls equals the number of
`remove_from_queue` calls and is at most one — exactly-once release
holds whether the guarded engine/preview/pack phase ends in `Done` or in
`Failed`; it does not extend to exceptions raised while waiting in the
queue, which escape without a dequeue. -/
theorem C1_amended (inp : Inputs) (env : Env) (hw : env.waitExc = none) :
    (generate_map inp env).events.countP Event.isAdd =
      (generate_map inp env).events.countP Event.isRemove ∧
    (generate_map inp env).events.countP Event.isAdd ≤ 1 := by
  cases hp : preparePhase inp env with
  | error r =>
    rw [generate_map_error _ _ _ hp]
    rcases prep_error_shape _ _ _ hp with ⟨he, _⟩ | ⟨m, he, _⟩ <;> rw [he] <;>
      simp [List.countP_cons, Event.isAdd, Event.isRemove]
  | ok limited =>
    rw [generate_map_ok _ _ _ hp]
    obtain ⟨h1, h2, _⟩ := enqueueAndRun_queue_counts inp.public env hw
    show (enqueueAndRun inp.public env).1.countP Event.isAdd =
        (enqueueAndRun inp.public env).1.countP Event.isRemove ∧
      (enqueueAndRun inp.public env).1.countP Event.isAdd ≤ 1
    rw [h1, h2]
    cases inp.public <;> simp

/-- Fixture for the C1 witness: a public run whose engine phase fails
after two stages; the wait completed, so release still happens. -/
def envC1w : Env :=
  mkEnv none (some (.runtimeError ("stage three failed"))) none none
    [("Background"), ("Texture")] 5 (.ok ("map.zip"))

/-- Witness for C1 (amended) at a concrete failing engine run. -/
theorem C1_amended_witness :
    envC1w.waitExc = none ∧
    ((generate_map inpC1 envC1w).events.countP Event.isAdd =
        (generate_map inpC1 envC1w).events.countP Event.isRemove ∧
      (generate_map inpC1 envC1w).events.countP Event.isAdd ≤ 1) :=
  ⟨rfl, C1_amended inpC1 envC1w rfl⟩

/-! ### C2 — the single catch boundary -/

/-- Helper: when the `try` body raises, the guarded construct emits
exactly one boundary error message, and that message embeds `repr` of
the exception. -/
theorem tef_statusError (public : Bool) (env : Env) (e : PyExc)
    (he : (tryPhase env).2 = some e) :
    (tryExceptFinally public env).1.countP Event.isStatusError = 1 ∧
    Event.statusError ("An error occurred while generating the map: " ++
      e.pyRepr ++ ".") ∈ (tryExceptFinally public env).1 := by
  rw [tryExceptFinally_events, he]
  constructor
  · rw [List.countP_append, List.countP_append,
      tryPhase_countP _ (fun _ _ => rfl) rfl (fun _ => rfl)]
    cases public <;> simp [List.countP_cons, Event.isStatusError]
  · simp

/-- Fixture for the C2 counterexample: the `Map` constructor raises. -/
def inpC2 : Inputs := mkInp false ("45.0,20.0") ("2048x2048")

/-- Environment for the C2 counterexample. -/
def envC2 : Env :=
  mkEnv none none none (some (.runtimeError ("engine construction failed")))
    [] 5 (.ok ("map.zip"))

/-- C2 counterexample: an exception raised inside `generate_map` by the
`Map` constructor — before the `try` block — escapes the routine
uncaught, contradicting the claim that no exception raised anywhere
inside `generate_map` escapes it. -/
theorem C2_counterexample :
    (generate_map inpC2 envC2).outcome =
      .raised (.runtimeError ("engine construction failed")) := by
  rfl

/-- C2 (amended): every exception raised inside the `try` block — while
driving the engine pipeline, creating previews, or packing — is caught
at exactly one boundary and surfaced as a single
`status_container.error` message containing `repr` of the exception, and
the run returns normally; exceptions raised before the `try` block
(game lookup, directory creation, settings parsing, map construction,
queue wait) can escape the routine. -/
theorem C2_amended (inp : Inputs) (env : Env) (limited : SettingsJson)
    (hprep : preparePhase inp env = .ok limited) (hw : env.waitExc = none) :
    (generate_map inp env).outcome = .returned ∧
    ∀ e, (tryPhase env).2 = some e →
      (generate_map inp env).events.countP Event.isStatusError = 1 ∧
      Event.statusError ("An error occurred while generating the map: " ++
        e.pyRepr ++ ".") ∈ (generate_map inp env).events := by
  rw [generate_map_ok _ _ _ hprep]
  obtain ⟨_, _, hout⟩ := enqueueAndRun_queue_counts inp.public env hw
  refine ⟨hout, ?_⟩
  intro e he
  obtain ⟨hcount, hmem⟩ := tef_statusError inp.public env e he
  show (enqueueAndRun inp.public env).1.countP Event.isStatusError = 1 ∧
    Event.statusError ("An error occurred while generating the map: " ++
      e.pyRepr ++ ".") ∈ (enqueueAndRun inp.public env).1
  cases hpub : inp.public with
  | false =>
    rw [hpub] at hcount hmem
    rw [enqueueAndRun_false]
    exact ⟨hcount, hmem⟩
  | true =>
    rw [hpub] at hcount hmem
    rw [enqueueAndRun_true env hw]
    refine ⟨?_, List.mem_append_right _ hmem⟩
    show (waitPrefix env ++ (tryExceptFinally true env).1).countP Event.isStatusError = 1
    rw [List.countP_append, countP_waitPrefix _ (fun _ => rfl) (fun _ => rfl), hcount]

/-- Environment for the C2 witness: a run whose engine loop raises after
one stage. -/
def envC2w : Env :=
  mkEnv none (some (.runtimeError ("stage failure"))) none none
    [("Background")] 3 (.ok ("map.zip"))

/-- Witness for C2 (amended) at a concrete failing engine run on a
private deployment. -/
theorem C2_amended_witness :
    preparePhase inpC2 envC2w = .ok settingsBoth ∧ envC2w.waitExc = none ∧
    (tryPhase envC2w).2 = some (.runtimeError ("stage failure")) ∧
    (generate_map inpC2 envC2w).outcome = .returned ∧
    ((generate_map inpC2 envC2w).events.countP Event.isStatusError = 1 ∧
      Event.statusError ("An error occurred while generating the map: " ++
        (PyExc.runtimeError ("stage failure")).pyRepr ++ ".") ∈
        (generate_map inpC2 envC2w).events) :=
  ⟨rfl, rfl, rfl, (C2_amended inpC2 envC2w settingsBoth rfl rfl).1,
    (C2_amended inpC2 envC2w settingsBoth rfl rfl).2 _ rfl⟩

/-! ### C3 — the coordinate string "91,0" -/

/-- Fixture for C3: a public submission of latitude 91. -/
def inpC3 : Inputs := mkInp true ("91,0") ("2048x2048")

/-- Environment for the C3 counterexample (packing fails, irrelevant to
validation). -/
def envC3x : Env :=
  mkEnv none none none none [] 2 (.error (.runtimeError ("pack failed")))

/-- Environment for the amended C3 (a completed run). -/
def envC3 : Env :=
  mkEnv none none none none [("Background"), ("Texture")] 2 (.ok ("map.zip"))

/-- C3 counterexample: submitting `"91,0"` does not yield an
`InputError` — no inline validation error at all is reported — and the
run does mutate the queue store by enqueueing, contradicting the claim
that the store's length is unchanged by a validation-rejected run. -/
theorem C3_counterexample :
    (generate_map inpC3 envC3x).events.countP Event.isStError = 0 ∧
    (generate_map inpC3 envC3x).events.countP Event.isAdd = 1 :=
  ⟨rfl, rfl⟩

/-- C3 (amended): the coordinate string `"91,0"` parses successfully as
the two floats `(91.0, 0.0)` — the validation checks only parseability,
never the latitude range — so `generate_map` reports no inline
validation error, enqueues once on the public deployment, completes, and
dequeues once. -/
theorem C3_amended :
    (lat_lon ("91,0")).toOption = some (.fin 91, .fin 0) ∧
    (generate_map inpC3 envC3).events.countP Event.isStError = 0 ∧
    (generate_map inpC3 envC3).events.countP Event.isAdd = 1 ∧
    (generate_map inpC3 envC3).events.countP Event.isRemove = 1 ∧
    (generate_map inpC3 envC3).outcome = .returned :=
  ⟨rfl, rfl, rfl, rfl, rfl⟩

/-! ### C4 — every validation failure is inline and pre-enqueue -/

/-- C4: for every input failing validation — coordinates that do not
parse as two floats, a size that does not parse as two integers, an odd
side, a non-square size, or malformed expert-mode raw-configuration
JSON — `generate_map` returns normally with a single inline error
message and performs no queue mutation (no `add_to_queue`, no
`remove_from_queue`), provided the preceding external calls
(`Game.from_code`, `os.makedirs`) did not themselves raise. -/
theorem C4_validation_no_enqueue (inp : Inputs) (env : Env)
    (hg : env.gameFromCodeExc = none) (hmk : env.makedirsExc = none)
    (hfail : (∃ e, lat_lon inp.latLonInput = .error e) ∨
             (∃ e, map_size inp.mapSizeInput = .error e) ∨
             (∃ h w, map_size inp.mapSizeInput = .ok (h, w) ∧
               (h % 2 ≠ 0 ∨ w % 2 ≠ 0)) ∨
             (∃ h w, map_size inp.mapSizeInput = .ok (h, w) ∧
               h % 2 = 0 ∧ w % 2 = 0 ∧ h ≠ w) ∨
             (inp.expertMode = true ∧ ∃ m, env.jsonLoads inp.rawConfig = .error m)) :
    (∃ m, (generate_map inp env).events = [.stError m]) ∧
    (generate_map inp env).outcome = .returned ∧
    (generate_map inp env).events.countP Event.isAdd = 0 ∧
    (generate_map inp env).events.countP Event.isRemove = 0 := by
  cases hl : lat_lon inp.latLonInput with
  | error e =>
    obtain ⟨m, rfl⟩ := lat_lon_error _ _ hl
    rw [generate_map_error _ _ _ (prep_latFail inp env hg m hl)]
    exact ⟨⟨latErrMsg, rfl⟩, rfl, rfl, rfl⟩
  | ok v =>
    cases hs : map_size inp.mapSizeInput with
    | error e =>
      obtain ⟨m, rfl⟩ := map_size_error _ _ hs
      rw [generate_map_error _ _ _ (prep_sizeFail inp env hg v hl m hs)]
      exact ⟨⟨sizeErrMsg, rfl⟩, rfl, rfl, rfl⟩
    | ok hw2 =>
      obtain ⟨h, w⟩ := hw2
      by_cases hodd : h % 2 ≠ 0 ∨ w % 2 ≠ 0
      · rw [generate_map_error _ _ _ (prep_evenFail inp env hg v hl h w hs hodd)]
        exact ⟨⟨evenErrMsg, rfl⟩, rfl, rfl, rfl⟩
      · by_cases hsq : h ≠ w
        · rw [generate_map_error _ _ _
            (prep_squareFail inp env hg v hl h w hs hodd hsq)]
          exact ⟨⟨squareErrMsg, rfl⟩, rfl, rfl, rfl⟩
        · rcases hfail with ⟨e, he⟩ | ⟨e, he⟩ | ⟨h2, w2, hs2, hodd2⟩ |
            ⟨h2, w2, hs2, _, _, hne2⟩ | ⟨hEM, m, hjl⟩
          · rw [hl] at he
            exact Except.noConfusion he
          · rw [hs] at he
            exact Except.noConfusion he
          · rw [hs] at hs2
            injection hs2 with h3
            injection h3 with h4 h5
            subst h4
            subst h5
            exact absurd hodd2 hodd
          · rw [hs] at hs2
            injection hs2 with h3
            injection h3 with h4 h5
            subst h4
            subst h5
            exact absurd hne2 hsq
          · rw [generate_map_error _ _ _
              (prep_rawFail inp env hg v hl h w hs hodd hsq hmk hEM m hjl)]
            exact ⟨⟨_, rfl⟩, rfl, rfl, rfl⟩

/-- Fixture for the C4 witness: the odd size `"2047x2047"` of
scenario C. -/
def inpC4 : Inputs := mkInp true ("45.0,20.0") ("2047x2047")

/-- Environment for the C4 witness. -/
def envC4 : Env := mkEnv none none none none [] 2 (.ok ("map.zip"))

/-- Witness for C4 at the odd size `"2047x2047"`. -/
theorem C4_witness :
    envC4.gameFromCodeExc = none ∧ envC4.makedirsExc = none ∧
    (map_size ("2047x2047")).toOption = some (2047, 2047) ∧
    ((∃ m, (generate_map inpC4 envC4).events = [.stError m]) ∧
      (generate_map inpC4 envC4).outcome = .returned ∧
      (generate_map inpC4 envC4).events.countP Event.isAdd = 0 ∧
      (generate_map inpC4 envC4).events.countP Event.isRemove = 0) :=
  ⟨rfl, rfl, rfl,
   C4_validation_no_enqueue inpC4 envC4 rfl rfl
     (Or.inr (Or.inr (Or.inl ⟨2047, 2047, rfl, Or.inl (by decide)⟩)))⟩

/-! ### C5 — the progress percentage formula -/

/-- Fixture for C5: a private run whose engine has one component. -/
def inpC5 : Inputs := mkInp false ("45.0,20.0") ("2048x2048")

/-- Environment for the C5 counterexample: one stage, everything
succeeds, so `step = int(100 / 3) = 33`. -/
def envC5 : Env := mkEnv none none none none [("Texture")] 1 (.ok ("map.zip"))

/-- C5 counterexample: with one stage the claim predicts the value
`1 * int(100 / (1 + 2)) = 33` after the stage completes, but the
reported sequence is `[0, 0, 66, 99]` — the loop reports `completed`
before adding the stage's increment — so `33` is never reported. -/
theorem C5_counterexample :
    progressValues (generate_map inpC5 envC5).events = [0, 0, 66, 99] ∧
    1 * (100 / (1 + 2)) = 33 ∧
    ¬ (33 ∈ progressValues (generate_map inpC5 envC5).events) :=
  ⟨rfl, rfl, by decide⟩

/-- Progress values pass through the guarded construct unchanged. -/
theorem tef_progressValues (public : Bool) (env : Env) :
    progressValues (tryExceptFinally public env).1 =
      progressValues (tryPhase env).1 := by
  rw [tryExceptFinally_events, progressValues_append, progressValues_append,
    progressValues_handler]
  cases public <;> simp [progressValues]

/-- Progress values of a run whose preparation succeeded and whose wait
completed are exactly the `try`-body values. -/
theorem generate_map_values_of_ok (inp : Inputs) (env : Env) (limited : SettingsJson)
    (hprep : preparePhase inp env = .ok limited) (hw : env.waitExc = none) :
    progressValues (generate_map inp env).events = progressValues (tryPhase env).1 := by
  rw [generate_map_ok _ _ _ hprep]
  show progressValues (enqueueAndRun inp.public env).1 = _
  cases hpub : inp.public with
  | false =>
    rw [enqueueAndRun_false]
    exact tef_progressValues false env
  | true =>
    rw [enqueueAndRun_true env hw]
    show progressValues (waitPrefix env ++ (tryExceptFinally true env).1) = _
    rw [progressValues_append, progressValues_waitPrefix, List.nil_append]
    exact tef_progressValues true env

/-- Values of a fully successful `try` body. -/
theorem tryPhase_success_values (env : Env) (hgen : env.genExc = none)
    (hsp : env.showPreviewExc = none) (hmp : env.mapPreviewExc = none)
    (p : String) (hpk : env.packResult = .ok p) :
    progressValues (tryPhase env).1 =
      0 :: ((List.range env.genYields.length).map (fun k => k * stepOf env) ++
        [stepOf env * env.genYields.length + stepOf env,
         stepOf env * env.genYields.length + stepOf env + stepOf env]) := by
  unfold tryPhase
  simp only [hgen, hsp, hmp, hpk]
  simp [progressValues_append, progressValues_ev0, previewsProgress, packingProgress,
    progressValues, progressValues_stageReports]

/-- C5 (amended): in a successful run the reported values are: an
initial `0`, then `(k-1) * step` at the `k`-th stage update (the loop
reports before adding the increment, so the claimed `k * step` is off by
one), then the reserved preview value `step * y + step` and packing
value `step * y + 2 * step`, where `y` is the number of stages the
engine yielded and `step = int(100 / (stage_count + 2))`; the maximum is
thus reached only at the packing update. -/
theorem C5_amended (inp : Inputs) (env : Env) (limited : SettingsJson)
    (hprep : preparePhase inp env = .ok limited) (hw : env.waitExc = none)
    (hgen : env.genExc = none) (hsp : env.showPreviewExc = none)
    (hmp : env.mapPreviewExc = none) (p : String) (hpk : env.packResult = .ok p) :
    progressValues (generate_map inp env).events =
      0 :: ((List.range env.genYields.length).map (fun k => k * stepOf env) ++
        [stepOf env * env.genYields.length + stepOf env,
         stepOf env * env.genYields.length + stepOf env + stepOf env]) := by
  rw [generate_map_values_of_ok inp env limited hprep hw,
    tryPhase_success_values env hgen hsp hmp p hpk]

/-- Environment for the C5 witness: two stages of two components,
`step = 25`. -/
def envC5w : Env :=
  mkEnv none none none none [("Background"), ("Texture")] 2 (.ok ("map.zip"))

/-- Witness for C5 (amended): concrete run with values
`[0, 0, 25, 75, 100]`. -/
theorem C5_amended_witness :
    preparePhase inpC5 envC5w = .ok settingsBoth ∧ envC5w.waitExc = none ∧
    envC5w.genExc = none ∧ envC5w.showPreviewExc = none ∧
    envC5w.mapPreviewExc = none ∧ envC5w.packResult = .ok ("map.zip") ∧
    progressValues (generate_map inpC5 envC5w).events = [0, 0, 25, 75, 100] :=
  ⟨rfl, rfl, rfl, rfl, rfl, rfl,
   C5_amended inpC5 envC5w settingsBoth rfl rfl rfl rfl rfl ("map.zip") rfl⟩

/-! ### C6 — progress monotonicity -/

/-- C6: in every run the sequence of progress values reported to the
progress bar is non-decreasing, and every reported value is at most the
final reported value — the last value is the maximum of the sequence. -/
theorem C6_progress_monotone (inp : Inputs) (env : Env) :
    List.Sorted (· ≤ ·) (progressValues (generate_map inp env).events) ∧
    ∀ v ∈ progressValues (generate_map inp env).events,
      v ≤ (progressValues (generate_map inp env).events).getLastD 0 := by
  rcases generate_map_progressValues inp env with h | h <;> rw [h]
  · exact ⟨List.sorted_nil, fun v hv => absurd hv (List.not_mem_nil v)⟩
  · exact ⟨sorted_tryPhase_values env,
      sorted_le_getLastD _ (sorted_tryPhase_values env)⟩

/-- Fixture for the C6 witness. -/
def inpC6 : Inputs := mkInp true ("45.0,20.0") ("2048x2048")

/-- Environment for the C6 witness. -/
def envC6 : Env := mkEnv none none none none [("A")] 1 (.ok ("map.zip"))

/-- Witness for C6 at a concrete run (values `[0, 0, 66, 99]`). -/
theorem C6_witness :
    66 ∈ progressValues (generate_map inpC6 envC6).events ∧
    66 ≤ (progressValues (generate_map inpC6 envC6).events).getLastD 0 :=
  ⟨by decide, (C6_progress_monotone inpC6 envC6).2 66 (by decide)⟩

/-! ### C7 — the admission predicate -/

/-- C7: the capacity ceiling is the fixed constant `2`; on a public
deployment the generate button is offered exactly when
`admit(length, ceiling) = length < ceiling` holds of the queue length
read at render time; and the check is not re-evaluated at enqueue time —
once validation succeeds, a public run enqueues regardless of any queue
state, in every environment. -/
theorem C7_admission :
    QUEUE_LIMIT = 2 ∧
    (∀ len : ℕ, generate_button_disabled true len = false ↔
      admission_spec len QUEUE_LIMIT = true) ∧
    (∀ inp env limited, preparePhase inp env = .ok limited → inp.public = true →
      (generate_map inp env).events.countP Event.isAdd = 1) := by
  refine ⟨rfl, ?_, ?_⟩
  · intro len
    simp only [generate_button_disabled, admission_spec, QUEUE_LIMIT]
    simp only [decide_eq_false_iff_not, decide_eq_true_eq, eq_self_iff_true, true_and]
    omega
  · intro inp env limited hprep hpub
    rw [generate_map_ok _ _ _ hprep]
    show (enqueueAndRun inp.public env).1.countP Event.isAdd = 1
    rw [hpub]
    cases hw : env.waitExc with
    | none => simpa using (enqueueAndRun_queue_counts true env hw).1
    | some e =>
      rw [enqueueAndRun_true_waitExc env e hw]
      show (waitPrefix env).countP Event.isAdd = 1
      unfold waitPrefix
      rw [List.countP_cons_of_pos _ _ (by rfl),
        countP_map_zero Event.isAdd
          (fun q => Event.statusInfo
            ("Your position in the queue: " ++ toString q ++ ". Please wait..."))
          (fun _ => rfl)]

/-- Fixture for the C7 witness. -/
def inpC7 : Inputs := mkInp true ("45.0,20.0") ("2048x2048")

/-- Environment for the C7 witness. -/
def envC7 : Env := mkEnv none none none none [("A")] 1 (.ok ("map.zip"))

/-- Witness for C7: at queue length 1 the button is offered, and the
concrete public run enqueues once. -/
theorem C7_witness :
    preparePhase inpC7 envC7 = .ok settingsBothLimited ∧ inpC7.public = true ∧
    (generate_button_disabled true 1 = false ↔
      admission_spec 1 QUEUE_LIMIT = true) ∧
    (generate_map inpC7 envC7).events.countP Event.isAdd = 1 :=
  ⟨rfl, rfl, C7_admission.2.1 1,
   C7_admission.2.2 inpC7 envC7 settingsBothLimited rfl rfl⟩

/-! ### C8 — deletion scheduled only after the download is offered -/

/-- C8: in the download section of `add_left_widgets`, whenever the
deferred-deletion scheduling event occurs at position `i` of the trace,
the download button was offered at an earlier position, and the trace
continues past `i` (the non-blocking scheduling call returns control to
the caller, which still resets the session flag). -/
theorem C8_deletion_after_download (g : Bool) (p : String) (i : ℕ)
    (hi : (download_section g p).get? i = some (.scheduleDelete p)) :
    (∃ j, j < i ∧ (download_section g p).get? j = some (.downloadOffered p)) ∧
    (∃ k, i < k ∧ ((download_section g p).get? k).isSome = true) := by
  cases g with
  | false => simp [download_section] at hi
  | true =>
    match i with
    | 0 => simp [download_section, remove_with_delay_without_blocking] at hi
    | 1 => exact ⟨⟨0, by decide, rfl⟩, ⟨2, by decide, rfl⟩⟩
    | 2 => simp [download_section] at hi
    | (n + 3) => simp [download_section] at hi

/-- Witness for C8 at the concrete generated-state trace. -/
theorem C8_witness :
    (download_section true ("map.zip")).get? 1 = some (.scheduleDelete ("map.zip")) ∧
    ((∃ j, j < 1 ∧
        (download_section true ("map.zip")).get? j = some (.downloadOffered ("map.zip"))) ∧
     (∃ k, 1 < k ∧ ((download_section true ("map.zip")).get? k).isSome = true)) :=
  ⟨rfl, C8_deletion_after_download true ("map.zip") 1 rfl⟩

/-! ### C9 — limiting the settings on a public deployment -/

/-- C9: for every settings dictionary containing the
`BackgroundSettings` and `TextureSettings` categories, `limit_on_public`
on a public deployment returns a dictionary whose background
`resize_factor` is `8` and whose texture `dissolve` is `False`, all
other categories and all other fields of those two categories preserved;
on a non-public deployment it returns the input unchanged; and every
settings dictionary a run of `generate_map` hands to the job
construction is the `limit_on_public` image of the submitted settings
(widget dictionary or parsed raw configuration). -/
theorem C9_limit_on_public (settings : SettingsJson) (bg tx : Category)
    (hbg : dictGet settings bgKey = some bg)
    (htx : dictGet settings txKey = some tx) :
    (∃ r, limit_on_public true settings = .ok r ∧
      dictGet r bgKey = some (dictSet bg rfKey (.vint 8)) ∧
      dictGet r txKey = some (dictSet tx dsKey (.vbool false)) ∧
      (∀ k, k ≠ bgKey → k ≠ txKey → dictGet r k = dictGet settings k) ∧
      (∀ f, f ≠ rfKey → dictGet (dictSet bg rfKey (.vint 8)) f = dictGet bg f) ∧
      (∀ f, f ≠ dsKey → dictGet (dictSet tx dsKey (.vbool false)) f = dictGet tx f)) ∧
    (∀ s2 : SettingsJson, limit_on_public false s2 = .ok s2) ∧
    (∀ inp env s2, (generate_map inp env).usedSettings = some s2 →
      ∃ base, (base = inp.settings ∨ env.jsonLoads inp.rawConfig = .ok base) ∧
        limit_on_public inp.public base = .ok s2) := by
  have hne : bgKey ≠ txKey := by decide
  refine ⟨?_, ?_, ?_⟩
  · unfold limit_on_public
    rw [if_neg (by simp)]
    simp only [hbg]
    rw [dictGet_dictSet_ne settings bgKey txKey (dictSet bg rfKey (.vint 8)) hne]
    simp only [htx]
    refine ⟨_, rfl, ?_, ?_, ?_, ?_, ?_⟩
    · rw [dictGet_dictSet_ne _ txKey bgKey _ (Ne.symm hne),
        dictGet_dictSet_self]
    · rw [dictGet_dictSet_self]
    · intro k hk1 hk2
      rw [dictGet_dictSet_ne _ txKey k _ (Ne.symm hk2),
        dictGet_dictSet_ne _ bgKey k _ (Ne.symm hk1)]
    · intro f hf
      rw [dictGet_dictSet_ne _ rfKey f _ (Ne.symm hf)]
    · intro f hf
      rw [dictGet_dictSet_ne _ dsKey f _ (Ne.symm hf)]
  · intro s2
    unfold limit_on_public
    rw [if_pos rfl]
  · exact fun inp env s2 h => generate_map_used inp env s2 h

/-- The background category of `settingsBoth`. -/
def bgCat : Category := [(rfKey, .vint 1), ("fill", .vbool true)]

/-- The texture category of `settingsBoth`. -/
def txCat : Category := [(dsKey, .vbool true)]

/-- Witness for C9 at the concrete dictionary `settingsBoth`. -/
theorem C9_witness :
    dictGet settingsBoth bgKey = some bgCat ∧
    dictGet settingsBoth txKey = some txCat ∧
    ((∃ r, limit_on_public true settingsBoth = .ok r ∧
      dictGet r bgKey = some (dictSet bgCat rfKey (.vint 8)) ∧
      dictGet r txKey = some (dictSet txCat dsKey (.vbool false)) ∧
      (∀ k, k ≠ bgKey → k ≠ txKey → dictGet r k = dictGet settingsBoth k) ∧
      (∀ f, f ≠ rfKey → dictGet (dictSet bgCat rfKey (.vint 8)) f = dictGet bgCat f) ∧
      (∀ f, f ≠ dsKey → dictGet (dictSet txCat dsKey (.vbool false)) f = dictGet txCat f)) ∧
    (∀ s2 : SettingsJson, limit_on_public false s2 = .ok s2) ∧
    (∀ inp env s2, (generate_map inp env).usedSettings = some s2 →
      ∃ base, (base = inp.settings ∨ env.jsonLoads inp.rawConfig = .ok base) ∧
        limit_on_public inp.public base = .ok s2)) :=
  ⟨rfl, rfl, C9_limit_on_public settingsBoth bgCat txCat rfl rfl⟩

/-! ### C10 — totality of input parsing -/

/-- C10: for every input string, each failure of the coordinate parse
(`split(",")` plus `float` conversion plus two-variable unpacking) and
of the size parse (`split("x")` plus `int` conversion plus unpacking) is
a `ValueError` — the exact exception class the `except ValueError`
handlers in `generate_map` catch — so a failing coordinate string always
ends the run in the inline coordinate error, and a failing size string
(with parsable coordinates) in the inline size error, with the routine
returning normally in both cases. -/
theorem C10_parse_totality (s : String) :
    (∀ e, lat_lon s = .error e → ∃ m, e = .valueError m) ∧
    (∀ e, map_size s = .error e → ∃ m, e = .valueError m) ∧
    (∀ inp env, env.gameFromCodeExc = none → inp.latLonInput = s →
      (∃ e, lat_lon s = .error e) →
      (generate_map inp env).events = [.stError latErrMsg] ∧
      (generate_map inp env).outcome = .returned) ∧
    (∀ inp env, env.gameFromCodeExc = none → inp.mapSizeInput = s →
      (∃ v, lat_lon inp.latLonInput = .ok v) →
      (∃ e, map_size s = .error e) →
      (generate_map inp env).events = [.stError sizeErrMsg] ∧
      (generate_map inp env).outcome = .returned) := by
  refine ⟨fun e he => lat_lon_error s e he, fun e he => map_size_error s e he, ?_, ?_⟩
  · intro inp env hg hs ⟨e, he⟩
    obtain ⟨m, rfl⟩ := lat_lon_error s e he
    rw [← hs] at he
    rw [generate_map_error _ _ _ (prep_latFail inp env hg m he)]
    exact ⟨rfl, rfl⟩
  · intro inp env hg hs ⟨v, hv⟩ ⟨e, he⟩
    obtain ⟨m, rfl⟩ := map_size_error s e he
    rw [← hs] at he
    rw [generate_map_error _ _ _ (prep_sizeFail inp env hg v hv m he)]
    exact ⟨rfl, rfl⟩

/-- Fixture for the C10 witness: a three-component coordinate string. -/
def inpC10 : Inputs := mkInp true ("1,2,3") ("2048x2048")

/-- Environment for the C10 witness. -/
def envC10 : Env := mkEnv none none none none [] 1 (.ok ("map.zip"))

/-- Witness for C10 at the coordinate string `"1,2,3"` (three
components: the tuple unpacking raises `ValueError`). -/
theorem C10_witness :
    envC10.gameFromCodeExc = none ∧ inpC10.latLonInput = "1,2,3" ∧
    (∃ e, lat_lon ("1,2,3") = .error e) ∧
    ((generate_map inpC10 envC10).events = [.stError latErrMsg] ∧
      (generate_map inpC10 envC10).outcome = .returned) :=
  ⟨rfl, rfl, ⟨.valueError ("too many values to unpack (expected 2)"), rfl⟩,
   (C10_parse_totality ("1,2,3")).2.2.1 inpC10 envC10 rfl rfl
     ⟨.valueError ("too many values to unpack (expected 2)"), rfl⟩⟩

end Maps4FS
